import Mathlib

/-!
Verification of the DataVista sales dashboard core (src/sales_app.py):
the KPI aggregation engine `calculate_kpis`, the sidebar filter stage,
and the schema-checking loader `load_data`.

Modelling choices (shallow embedding):
* one data row is a `Record`; monetary amounts and ratings are exact
  rationals (ℚ) — the idealisation of the program's floats;
* `round(x, 2)` / pandas `.round(2)` is modelled by `round2`, decimal
  rounding half-to-even (the convention of Python's `round` and numpy);
* a pandas group-by/sum/round/to_dict is `groupSales`: a list of
  (key, rounded sum) pairs over the distinct observed keys;
* `Series.duplicated().sum()` is `dupCount [] _`: the count of entries
  equal to some strictly earlier entry;
* the mean of an empty rating column is NaN in the program; it is
  modelled as `Option ℚ` with `none` on the empty collection;
* the Excel source is a `Table`: a list of column names plus rows;
  `pd.read_excel(..., nrows=1000)` is `List.take 1000`.
-/

namespace DataVista

/-- One validated sales transaction row: the 17 source columns
(Time kept via its derived hour) and the derived date buckets. -/
structure Record where
  invoice_id : String
  branch : String
  city : String
  customer_type : String
  gender : String
  product_line : String
  unit_price : ℚ
  quantity : ℕ
  tax5 : ℚ
  total : ℚ
  payment : String
  cogs : ℚ
  gross_margin_percentage : ℚ
  gross_income : ℚ
  rating : ℚ
  date : ℤ
  hour : ℕ
  week : ℤ
  month : ℤ
deriving DecidableEq

/-- Round a rational to the nearest integer, ties to the even integer:
the rounding convention of Python's builtin `round` and of numpy. -/
def rhalfeven (x : ℚ) : ℤ :=
  if x - ⌊x⌋ < 1/2 then ⌊x⌋
  else if 1/2 < x - ⌊x⌋ then ⌊x⌋ + 1
  else if ⌊x⌋ % 2 = 0 then ⌊x⌋ else ⌊x⌋ + 1

/-- Decimal rounding to 2 places: `round(x, 2)` / `.round(2)`. -/
def round2 (x : ℚ) : ℚ := (rhalfeven (100 * x) : ℚ) / 100

/-- Decimal rounding to 1 place: `round(x, 1)`. -/
def round1 (x : ℚ) : ℚ := (rhalfeven (10 * x) : ℚ) / 10

/-- Distinct values of a list in first-occurrence order: pandas
`Series.unique()`. -/
def uniqueKeys {α : Type} [DecidableEq α] (l : List α) : List α :=
  l.foldl (fun acc x => if x ∈ acc then acc else acc ++ [x]) []

/-- Count of entries equal to some strictly earlier entry (`seen` holds
the values already passed): pandas `Series.duplicated().sum()`. -/
def dupCount {α : Type} [DecidableEq α] : List α → List α → ℕ
  | _, [] => 0
  | seen, x :: xs => (if x ∈ seen then 1 else 0) + dupCount (x :: seen) xs

/-- The aggregator's internal `repeat_customers` value:
`df["Invoice ID"].duplicated().sum()`. -/
def repeat_customers (df : List Record) : ℕ :=
  dupCount [] (df.map Record.invoice_id)

/-- One grouped sales mapping:
`df.groupby(key)["Total"].sum().round(2).to_dict()`, represented as the
list of (observed key, rounded sum of `total` over the rows bearing it). -/
def groupSales {α : Type} [DecidableEq α] (key : Record → α) (df : List Record) :
    List (α × ℚ) :=
  (uniqueKeys (df.map key)).map
    (fun v => (v, round2 (((df.filter (fun r => decide (key r = v))).map Record.total).sum)))

/-- The dictionary returned by `calculate_kpis`. -/
structure KpiResult where
  total_sales : ℚ
  total_transactions : ℕ
  avg_sale_per_transaction : ℚ
  avg_rating : Option ℚ
  total_customers : ℕ
  product_sales : List (String × ℚ)
  hour_sales : List (ℕ × ℚ)
  monthly_sales : List (ℤ × ℚ)
  customer_type_sales : List (String × ℚ)
  gender_sales : List (String × ℚ)
  city_sales : List (String × ℚ)
  repeat_customer_rate : ℚ
  clv : ℚ
deriving DecidableEq

/-- The KPI aggregator `calculate_kpis(df)` of src/sales_app.py,
field for field in the source's order of computation. -/
def calculate_kpis (df : List Record) : KpiResult :=
  let total_sales : ℚ := round2 ((df.map Record.total).sum)
  let total_transactions : ℕ := df.length
  let avg_sale_per_transaction : ℚ :=
    if total_transactions > 0 then round2 (total_sales / (total_transactions : ℚ)) else 0
  let avg_rating : Option ℚ :=
    if df.isEmpty then none
    else some (round1 ((df.map Record.rating).sum / (df.length : ℚ)))
  let total_customers : ℕ := (uniqueKeys (df.map Record.invoice_id)).length
  let repeat_count : ℕ := repeat_customers df
  let repeat_customer_rate : ℚ :=
    if total_customers > 0 then round2 ((repeat_count : ℚ) / (total_customers : ℚ) * 100) else 0
  let avg_purchase_value : ℚ :=
    if total_customers > 0 then total_sales / (total_customers : ℚ) else 0
  let purchase_frequency : ℚ :=
    if total_customers > 0 then (total_transactions : ℚ) / (total_customers : ℚ) else 0
  let clv : ℚ := round2 (avg_purchase_value * purchase_frequency * 5)
  ⟨total_sales, total_transactions, avg_sale_per_transaction, avg_rating, total_customers,
    groupSales Record.product_line df, groupSales Record.hour df, groupSales Record.month df,
    groupSales Record.customer_type df, groupSales Record.gender df, groupSales Record.city df,
    repeat_customer_rate, clv⟩

/-- The date-range stage: `df[(df["date"] >= start_date) & (df["date"] <= end_date)]`
when a range was picked, the whole frame otherwise. -/
def dateFilter (date_range : Option (ℤ × ℤ)) (df : List Record) : List Record :=
  match date_range with
  | none => df
  | some (s, e) => df.filter (fun r => decide (s ≤ r.date ∧ r.date ≤ e))

/-- The three conjoined `isin` set filters of src/sales_app.py lines 97-101. -/
def setFilters (city_filter customer_type_filter gender_filter : List String)
    (df : List Record) : List Record :=
  df.filter (fun r =>
    decide (r.city ∈ city_filter ∧ r.customer_type ∈ customer_type_filter ∧
      r.gender ∈ gender_filter))

/-- The whole filter pipeline producing the source's `filtered_df`. -/
def filtered_df (date_range : Option (ℤ × ℤ))
    (city_filter customer_type_filter gender_filter : List String)
    (df : List Record) : List Record :=
  setFilters city_filter customer_type_filter gender_filter (dateFilter date_range df)

/-- Default city selection: `df["City"].unique() if not df.empty else []`. -/
def default_city_filter (df : List Record) : List String :=
  if df.isEmpty then [] else uniqueKeys (df.map Record.city)

/-- Default customer-type selection, as for cities. -/
def default_customer_type_filter (df : List Record) : List String :=
  if df.isEmpty then [] else uniqueKeys (df.map Record.customer_type)

/-- Default gender selection, as for cities. -/
def default_gender_filter (df : List Record) : List String :=
  if df.isEmpty then [] else uniqueKeys (df.map Record.gender)

/-- The 17 required source columns of `load_data`. -/
def required_columns : List String :=
  ["Invoice ID", "Branch", "City", "Customer_type", "Gender", "Product line",
   "Unit price", "Quantity", "Tax 5%", "Total", "Date", "Time", "Payment",
   "cogs", "gross margin percentage", "gross income", "Rating"]

/-- The Excel source as seen by `load_data`: its column names and its rows. -/
structure Table where
  columns : List String
  rows : List Record

/-- The loader `load_data`: read at most 1000 rows (`nrows=1000`), then
reject the whole dataset — returning the empty frame — if any required
column is absent. -/
def load_data (t : Table) : List Record :=
  let df := t.rows.take 1000
  if required_columns.all (fun c => decide (c ∈ t.columns)) then df else []

/-- Fixture row builder: the fields the claims exercise, neutral values
for the rest. -/
def mkRec (inv city ctype gender pline : String) (total rating : ℚ)
    (d : ℤ) (h : ℕ) (m : ℤ) : Record :=
  ⟨inv, "A", city, ctype, gender, pline, 0, 0, 0, total, "Cash", 0, 0, 0, rating, d, h, 0, m⟩

/-- The literal 3-record scenario of spec §8. -/
def fixtureScenario : List Record :=
  [mkRec "I1" "X" "Member" "Male" "P" 10 7 20240101 9 202401,
   mkRec "I2" "Y" "Normal" "Female" "P" 20 7 20240102 14 202401,
   mkRec "I2" "Y" "Normal" "Female" "P" 30 7 20240102 14 202401]

/-- The invoice-id fixture [A,A,B,C,C,C] of spec §8. -/
def fixtureAABCCC : List Record :=
  [mkRec "A" "X" "Member" "Male" "P" 1 7 1 9 1,
   mkRec "A" "X" "Member" "Male" "P" 2 7 1 9 1,
   mkRec "B" "X" "Member" "Male" "P" 3 7 1 9 1,
   mkRec "C" "X" "Member" "Male" "P" 4 7 1 9 1,
   mkRec "C" "X" "Member" "Male" "P" 5 7 1 9 1,
   mkRec "C" "X" "Member" "Male" "P" 6 7 1 9 1]

/-- A 1500-row source carrying every required column. -/
def bigTable : Table :=
  ⟨required_columns, List.replicate 1500 (mkRec "I1" "X" "Member" "Male" "P" 10 7 1 9 1)⟩

/-- Spec-side repeat count, written from the claim's words (for the
refinement comparison with `repeat_customers`): the number of positions
whose invoice id also appears at a strictly earlier position in
iteration order. -/
def specEarlierRepeat (ids : List String) : ℕ :=
  ((List.range ids.length).filter
    (fun i => decide (∃ j ∈ List.range i, ids.getD j "" = ids.getD i ""))).length

/-- Every invoice id's occurrences are contiguous in iteration order:
between two positions carrying the same id only that id occurs. -/
def Contiguous (ids : List String) : Prop :=
  ∀ i ∈ List.range ids.length, ∀ j ∈ List.range ids.length,
    ids.getD i "" = ids.getD j "" →
      ∀ k ∈ List.range ids.length, i < k → k < j → ids.getD k "" = ids.getD i ""

instance (ids : List String) : Decidable (Contiguous ids) := by
  unfold Contiguous
  exact inferInstance

/-! Lemmas about `uniqueKeys` and `dupCount`. -/

/-- Membership in the running fold behind `uniqueKeys`. -/
theorem mem_foldl_insert {α : Type} [DecidableEq α] (l : List α) :
    ∀ (acc : List α) (a : α),
      a ∈ l.foldl (fun acc x => if x ∈ acc then acc else acc ++ [x]) acc ↔
        a ∈ acc ∨ a ∈ l := by
  induction l with
  | nil => intro acc a; simp
  | cons x xs ih =>
    intro acc a
    simp only [List.foldl_cons]
    rw [ih]
    by_cases hx : x ∈ acc
    · rw [if_pos hx]
      simp only [List.mem_cons]
      constructor
      · rintro (h | h)
        · exact Or.inl h
        · exact Or.inr (Or.inr h)
      · rintro (h | h | h)
        · exact Or.inl h
        · exact Or.inl (h ▸ hx)
        · exact Or.inr h
    · rw [if_neg hx]
      simp only [List.mem_append, List.mem_singleton, List.mem_cons]
      tauto

/-- A value appears in `uniqueKeys l` exactly when it appears in `l`. -/
theorem mem_uniqueKeys {α : Type} [DecidableEq α] (l : List α) (a : α) :
    a ∈ uniqueKeys l ↔ a ∈ l := by
  unfold uniqueKeys
  rw [mem_foldl_insert]
  simp

/-- The running fold behind `uniqueKeys` preserves `Nodup`. -/
theorem nodup_foldl_insert {α : Type} [DecidableEq α] (l : List α) :
    ∀ acc : List α, acc.Nodup →
      (l.foldl (fun acc x => if x ∈ acc then acc else acc ++ [x]) acc).Nodup := by
  induction l with
  | nil => intro acc h; simpa using h
  | cons x xs ih =>
    intro acc h
    simp only [List.foldl_cons]
    apply ih
    by_cases hx : x ∈ acc
    · rw [if_pos hx]; exact h
    · rw [if_neg hx]
      rw [List.nodup_append]
      exact ⟨h, List.nodup_singleton x, by
        intro a ha ha'
        rw [List.mem_singleton] at ha'
        exact hx (ha' ▸ ha)⟩

/-- `uniqueKeys l` has no duplicates. -/
theorem nodup_uniqueKeys {α : Type} [DecidableEq α] (l : List α) :
    (uniqueKeys l).Nodup :=
  nodup_foldl_insert l [] List.nodup_nil

/-- Joint bookkeeping of `dupCount` and the `uniqueKeys` fold: over any
list, duplicate hits plus newly collected distinct values account for
every element. -/
theorem dupCount_add_foldl_length {α : Type} [DecidableEq α] (xs : List α) :
    ∀ (seen acc : List α), (∀ a, a ∈ seen ↔ a ∈ acc) →
      dupCount seen xs +
        (xs.foldl (fun acc x => if x ∈ acc then acc else acc ++ [x]) acc).length =
        xs.length + acc.length := by
  induction xs with
  | nil => intro seen acc _; simp [dupCount]
  | cons x xs ih =>
    intro seen acc h
    simp only [List.foldl_cons, dupCount]
    by_cases hx : x ∈ seen
    · rw [if_pos hx, if_pos ((h x).mp hx)]
      have hrec := ih (x :: seen) acc (fun a => by
        simp only [List.mem_cons]
        have := h a
        have hxacc := (h x).mp hx
        constructor
        · rintro (rfl | ha)
          · exact hxacc
          · exact (h a).mp ha
        · intro ha
          exact Or.inr ((h a).mpr ha))
      simp only [List.length_cons]
      omega
    · rw [if_neg hx, if_neg (fun hc => hx ((h x).mpr hc))]
      have hrec := ih (x :: seen) (acc ++ [x]) (fun a => by
        simp only [List.mem_cons, List.mem_append, List.mem_singleton]
        have := h a
        tauto)
      simp only [List.length_append, List.length_singleton, List.length_cons,
        List.length_nil] at hrec ⊢
      omega

/-- Duplicate rows plus distinct values partition the row count. -/
theorem dupCount_add_uniqueKeys_length {α : Type} [DecidableEq α] (xs : List α) :
    dupCount [] xs + (uniqueKeys xs).length = xs.length := by
  have h := dupCount_add_foldl_length xs [] [] (fun a => Iff.rfl)
  simpa [uniqueKeys] using h

/-! Lemmas about the rounding functions. -/

/-- Half-to-even rounding moves a value by at most one half. -/
theorem abs_rhalfeven_sub_le (x : ℚ) : |(rhalfeven x : ℚ) - x| ≤ 1/2 := by
  have hf : (⌊x⌋ : ℚ) ≤ x := Int.floor_le x
  have hf1 : x < ⌊x⌋ + 1 := Int.lt_floor_add_one x
  unfold rhalfeven
  by_cases h1 : x - ⌊x⌋ < 1/2
  · rw [if_pos h1, abs_le]
    constructor <;> linarith
  · rw [if_neg h1]
    by_cases h2 : 1/2 < x - ⌊x⌋
    · rw [if_pos h2, abs_le]
      constructor <;> push_cast <;> linarith
    · rw [if_neg h2]
      by_cases h3 : ⌊x⌋ % 2 = 0
      · rw [if_pos h3, abs_le]
        constructor <;> linarith
      · rw [if_neg h3, abs_le]
        constructor <;> push_cast <;> linarith

/-- Rounding to two decimals moves a value by at most 1/200. -/
theorem abs_round2_sub_le (x : ℚ) : |round2 x - x| ≤ 1/200 := by
  have h := abs_rhalfeven_sub_le (100 * x)
  unfold round2
  have heq : (rhalfeven (100 * x) : ℚ) / 100 - x = ((rhalfeven (100 * x) : ℚ) - 100 * x) / 100 := by
    ring
  rw [heq, abs_div, abs_of_pos (by norm_num : (0:ℚ) < 100)]
  rw [div_le_div_iff₀ (by norm_num) (by norm_num)]
  nlinarith [h]

/-- Shifting an earlier-position search past the head of a list. -/
theorem exists_getD_cons_succ (x : String) (xs : List String) (i : ℕ) (v : String) :
    (∃ j ∈ List.range (i + 1), (x :: xs).getD j "" = v) ↔
      (x = v ∨ ∃ j ∈ List.range i, xs.getD j "" = v) := by
  constructor
  · rintro ⟨j, hj, hv⟩
    rw [List.mem_range] at hj
    cases j with
    | zero => exact Or.inl hv
    | succ j =>
      right
      refine ⟨j, List.mem_range.mpr (by omega), ?_⟩
      simpa using hv
  · rintro (rfl | ⟨j, hj, hv⟩)
    · exact ⟨0, List.mem_range.mpr (Nat.succ_pos i), by simp⟩
    · refine ⟨j + 1, List.mem_range.mpr (by rw [List.mem_range] at hj; omega), ?_⟩
      simpa using hv

/-- `dupCount seen` counts the positions whose value is in `seen` or has
appeared at a strictly earlier position. -/
theorem dupCount_eq_specAux (ids : List String) : ∀ seen : List String,
    dupCount seen ids =
      ((List.range ids.length).filter
        (fun i => decide (ids.getD i "" ∈ seen ∨
          ∃ j ∈ List.range i, ids.getD j "" = ids.getD i ""))).length := by
  induction ids with
  | nil => intro seen; simp [dupCount]
  | cons x xs ih =>
    intro seen
    simp only [dupCount, List.length_cons, List.range_succ_eq_map, List.filter_cons]
    have h0 : (decide ((x :: xs).getD 0 "" ∈ seen ∨
        ∃ j ∈ List.range 0, (x :: xs).getD j "" = (x :: xs).getD 0 "")) = decide (x ∈ seen) := by
      rw [decide_eq_decide]
      simp
    rw [h0]
    have hrest : ((List.range xs.length).map Nat.succ).filter
          (fun i => decide ((x :: xs).getD i "" ∈ seen ∨
            ∃ j ∈ List.range i, (x :: xs).getD j "" = (x :: xs).getD i "")) =
        ((List.range xs.length).filter
          (fun i => decide (xs.getD i "" ∈ (x :: seen) ∨
            ∃ j ∈ List.range i, xs.getD j "" = xs.getD i ""))).map Nat.succ := by
      rw [List.filter_map]
      apply congrArg (List.map Nat.succ)
      apply List.filter_congr
      intro i _
      show decide ((x :: xs).getD (Nat.succ i) "" ∈ seen ∨
          ∃ j ∈ List.range (Nat.succ i), (x :: xs).getD j "" = (x :: xs).getD (Nat.succ i) "") = _
      rw [decide_eq_decide, List.getD_cons_succ, exists_getD_cons_succ, List.mem_cons]
      constructor
      · rintro (h | h | h)
        · exact Or.inl (Or.inr h)
        · exact Or.inl (Or.inl h.symm)
        · exact Or.inr h
      · rintro ((h | h) | h)
        · exact Or.inr (Or.inl h.symm)
        · exact Or.inl h
        · exact Or.inr (Or.inr h)
    rw [hrest, ih (x :: seen)]
    by_cases hx : x ∈ seen
    · simp [hx]
      omega
    · simp [hx]

/-- The program's duplicated-row count is exactly the spec's
appeared-strictly-earlier count. -/
theorem dupCount_eq_spec (ids : List String) :
    dupCount [] ids = specEarlierRepeat ids := by
  rw [dupCount_eq_specAux ids []]
  unfold specEarlierRepeat
  apply congrArg List.length
  apply List.filter_congr
  intro i _
  rw [decide_eq_decide]
  simp

/-! Partitioning a column sum by group keys. -/

/-- A filter and its complement split a mapped sum. -/
theorem sum_map_filter_add (f : Record → ℚ) (p : Record → Bool) (l : List Record) :
    ((l.filter p).map f).sum + ((l.filter (fun x => !p x)).map f).sum = (l.map f).sum := by
  induction l with
  | nil => simp
  | cons x xs ih =>
    by_cases hx : p x
    · simp only [List.filter_cons, hx, Bool.not_true, Bool.false_eq_true, if_false, if_true,
        List.map_cons, List.sum_cons]
      rw [← ih]; ring
    · simp only [List.filter_cons, hx, Bool.not_eq_true] at *
      simp only [List.filter_cons, hx, Bool.not_false, Bool.false_eq_true, if_false, if_true,
        List.map_cons, List.sum_cons]
      rw [← ih]; ring

/-- Rows with key `v` are unaffected by first discarding the rows with a
different key `k`. -/
theorem filter_key_of_ne {α : Type} [DecidableEq α] (key : Record → α) (k v : α)
    (hvk : v ≠ k) (l : List Record) :
    ((l.filter (fun r => !decide (key r = k))).filter (fun r => decide (key r = v))) =
      l.filter (fun r => decide (key r = v)) := by
  rw [List.filter_filter]
  apply List.filter_congr
  intro r _
  by_cases hr : key r = v
  · simp [hr, hvk]
  · simp [hr]

/-- Summing the per-key sums over a duplicate-free covering key list
reproduces the whole column sum. -/
theorem sum_over_nodup_keys {α : Type} [DecidableEq α] (key : Record → α) :
    ∀ (ks : List α) (l : List Record), ks.Nodup → (∀ r ∈ l, key r ∈ ks) →
      (ks.map (fun v => ((l.filter (fun r => decide (key r = v))).map Record.total).sum)).sum
        = (l.map Record.total).sum := by
  intro ks
  induction ks with
  | nil =>
    intro l _ hcov
    cases l with
    | nil => simp
    | cons x xs => exact absurd (hcov x (by simp)) (by simp)
  | cons k ks ih =>
    intro l hnd hcov
    simp only [List.map_cons, List.sum_cons]
    have hk : k ∉ ks := (List.nodup_cons.mp hnd).1
    have hnd' : ks.Nodup := (List.nodup_cons.mp hnd).2
    have hmap : ks.map (fun v => ((l.filter (fun r => decide (key r = v))).map Record.total).sum)
        = ks.map (fun v =>
            (((l.filter (fun r => !decide (key r = k))).filter
              (fun r => decide (key r = v))).map Record.total).sum) := by
      apply List.map_congr_left
      intro v hv
      rw [filter_key_of_ne key k v (fun h => hk (h ▸ hv)) l]
    rw [hmap, ih (l.filter (fun r => !decide (key r = k))) hnd' ?_]
    · exact sum_map_filter_add Record.total (fun r => decide (key r = k)) l
    · intro r hr
      rcases List.mem_filter.mp hr with ⟨hrl, hrk⟩
      have : key r ≠ k := by
        intro hkk
        simp [hkk] at hrk
      rcases List.mem_cons.mp (hcov r hrl) with hck | hcks
      · exact absurd hck this
      · exact hcks

/-- The unrounded per-key sums behind any `groupSales` mapping add up to
the unrounded grand total. -/
theorem groupSales_partition {α : Type} [DecidableEq α] (key : Record → α) (l : List Record) :
    ((uniqueKeys (l.map key)).map
        (fun v => ((l.filter (fun r => decide (key r = v))).map Record.total).sum)).sum
      = (l.map Record.total).sum := by
  apply sum_over_nodup_keys key (uniqueKeys (l.map key)) l (nodup_uniqueKeys _)
  intro r hr
  exact (mem_uniqueKeys _ _).mpr (List.mem_map_of_mem key hr)

/-- A list of pointwise-close summands has close sums. -/
theorem abs_sum_map_sub_le {α : Type} (f g : α → ℚ) (c : ℚ) :
    ∀ ks : List α, (∀ v, |f v - g v| ≤ c) →
      |(ks.map f).sum - (ks.map g).sum| ≤ ks.length * c := by
  intro ks
  induction ks with
  | nil => intro _; simp
  | cons k ks ih =>
    intro h
    simp only [List.map_cons, List.sum_cons, List.length_cons]
    have h1 : f k + (ks.map f).sum - (g k + (ks.map g).sum)
        = (f k - g k) + ((ks.map f).sum - (ks.map g).sum) := by ring
    rw [h1]
    calc |(f k - g k) + ((ks.map f).sum - (ks.map g).sum)|
        ≤ |f k - g k| + |(ks.map f).sum - (ks.map g).sum| := abs_add _ _
      _ ≤ c + ks.length * c := add_le_add (h k) (ih h)
      _ = (ks.length + 1) * c := by ring
      _ = ((ks.length + 1 : ℕ) : ℚ) * c := by push_cast; ring

/-- The values of one grouped sales mapping add up to `total_sales`
within the accumulated rounding tolerance: one half-cent per group plus
one for the rounded grand total. -/
theorem groupSales_sum_close {α : Type} [DecidableEq α] (key : Record → α) (l : List Record) :
    |((groupSales key l).map Prod.snd).sum - round2 ((l.map Record.total).sum)| ≤
      ((groupSales key l).length + 1) / 200 := by
  have hsnd : (groupSales key l).map Prod.snd =
      (uniqueKeys (l.map key)).map
        (fun v => round2 (((l.filter (fun r => decide (key r = v))).map Record.total).sum)) := by
    unfold groupSales
    rw [List.map_map]
    rfl
  have hlen : (groupSales key l).length = (uniqueKeys (l.map key)).length := by
    unfold groupSales
    rw [List.length_map]
  have hclose : |((uniqueKeys (l.map key)).map
        (fun v => round2 (((l.filter (fun r => decide (key r = v))).map Record.total).sum))).sum -
      ((uniqueKeys (l.map key)).map
        (fun v => ((l.filter (fun r => decide (key r = v))).map Record.total).sum)).sum| ≤
      (uniqueKeys (l.map key)).length * (1/200) :=
    abs_sum_map_sub_le _ _ (1/200) _ (fun v => abs_round2_sub_le _)
  have hpart := groupSales_partition key l
  have hround := abs_round2_sub_le ((l.map Record.total).sum)
  rw [hsnd, hlen]
  rw [hpart] at hclose
  set S := (l.map Record.total).sum
  set A := ((uniqueKeys (l.map key)).map
    (fun v => round2 (((l.filter (fun r => decide (key r = v))).map Record.total).sum))).sum
  set n := (uniqueKeys (l.map key)).length
  have h2 : |A - round2 S| ≤ |A - S| + |round2 S - S| := by
    have h3 : A - round2 S = (A - S) + (S - round2 S) := by ring
    rw [h3]
    calc |(A - S) + (S - round2 S)| ≤ |A - S| + |S - round2 S| := abs_add _ _
      _ = |A - S| + |round2 S - S| := by rw [abs_sub_comm S (round2 S)]
  have h4 : (n : ℚ) * (1/200) + 1/200 = ((n : ℚ) + 1) / 200 := by ring
  calc |A - round2 S| ≤ |A - S| + |round2 S - S| := h2
    _ ≤ (n : ℚ) * (1/200) + 1/200 := add_le_add hclose hround
    _ = ((n : ℚ) + 1) / 200 := h4

/-! Shared helper facts about the aggregator on the empty collection and
the repeat count. -/

/-- On the empty collection every guarded ratio metric is zero. -/
theorem kpis_nil_defaults :
    (calculate_kpis ([] : List Record)).total_transactions = 0 ∧
    (calculate_kpis ([] : List Record)).avg_sale_per_transaction = 0 ∧
    (calculate_kpis ([] : List Record)).repeat_customer_rate = 0 ∧
    (calculate_kpis ([] : List Record)).clv = 0 := by
  refine ⟨rfl, ?_, ?_, ?_⟩ <;>
    norm_num [calculate_kpis, uniqueKeys, repeat_customers, dupCount, round2, rhalfeven]

/-- Unconditionally, the duplicated-row count equals the row count minus
the number of distinct invoice ids. -/
theorem repeat_eq_sub (l : List Record) :
    repeat_customers l =
      (calculate_kpis l).total_transactions - (calculate_kpis l).total_customers := by
  show dupCount [] (l.map Record.invoice_id) =
    l.length - (uniqueKeys (l.map Record.invoice_id)).length
  have h := dupCount_add_uniqueKeys_length (l.map Record.invoice_id)
  rw [List.length_map] at h
  omega

/-! The claims. -/

/-- C1: for every non-empty record collection, the values of each of the
six grouped sales mappings computed by `calculate_kpis` sum to
`total_sales` within rounding tolerance: at most half a cent per group
key plus half a cent for the rounded grand total. -/
theorem claim1_group_sums_match_total (l : List Record) (_hne : l ≠ []) :
    |((calculate_kpis l).product_sales.map Prod.snd).sum - (calculate_kpis l).total_sales| ≤
      ((calculate_kpis l).product_sales.length + 1) / 200 ∧
    |((calculate_kpis l).hour_sales.map Prod.snd).sum - (calculate_kpis l).total_sales| ≤
      ((calculate_kpis l).hour_sales.length + 1) / 200 ∧
    |((calculate_kpis l).monthly_sales.map Prod.snd).sum - (calculate_kpis l).total_sales| ≤
      ((calculate_kpis l).monthly_sales.length + 1) / 200 ∧
    |((calculate_kpis l).customer_type_sales.map Prod.snd).sum - (calculate_kpis l).total_sales| ≤
      ((calculate_kpis l).customer_type_sales.length + 1) / 200 ∧
    |((calculate_kpis l).gender_sales.map Prod.snd).sum - (calculate_kpis l).total_sales| ≤
      ((calculate_kpis l).gender_sales.length + 1) / 200 ∧
    |((calculate_kpis l).city_sales.map Prod.snd).sum - (calculate_kpis l).total_sales| ≤
      ((calculate_kpis l).city_sales.length + 1) / 200 := by
  refine ⟨?_, ?_, ?_, ?_, ?_, ?_⟩ <;> exact groupSales_sum_close _ l

/-- Witness for C1 at the literal 3-record scenario. -/
theorem claim1_witness : fixtureScenario ≠ [] ∧
    (|((calculate_kpis fixtureScenario).product_sales.map Prod.snd).sum -
        (calculate_kpis fixtureScenario).total_sales| ≤
      ((calculate_kpis fixtureScenario).product_sales.length + 1) / 200 ∧
    |((calculate_kpis fixtureScenario).hour_sales.map Prod.snd).sum -
        (calculate_kpis fixtureScenario).total_sales| ≤
      ((calculate_kpis fixtureScenario).hour_sales.length + 1) / 200 ∧
    |((calculate_kpis fixtureScenario).monthly_sales.map Prod.snd).sum -
        (calculate_kpis fixtureScenario).total_sales| ≤
      ((calculate_kpis fixtureScenario).monthly_sales.length + 1) / 200 ∧
    |((calculate_kpis fixtureScenario).customer_type_sales.map Prod.snd).sum -
        (calculate_kpis fixtureScenario).total_sales| ≤
      ((calculate_kpis fixtureScenario).customer_type_sales.length + 1) / 200 ∧
    |((calculate_kpis fixtureScenario).gender_sales.map Prod.snd).sum -
        (calculate_kpis fixtureScenario).total_sales| ≤
      ((calculate_kpis fixtureScenario).gender_sales.length + 1) / 200 ∧
    |((calculate_kpis fixtureScenario).city_sales.map Prod.snd).sum -
        (calculate_kpis fixtureScenario).total_sales| ≤
      ((calculate_kpis fixtureScenario).city_sales.length + 1) / 200) :=
  ⟨by simp [fixtureScenario],
    claim1_group_sums_match_total fixtureScenario (by simp [fixtureScenario])⟩

/-- C2: the aggregator never divides on empty input — when
`total_transactions = 0` the three guarded ratio metrics
(`avg_sale_per_transaction`, `repeat_customer_rate`, `clv`) are all 0.
(The embedding is a total function: every division in the source is
behind the corresponding guard.) -/
theorem claim2_empty_input_guarded (l : List Record)
    (h : (calculate_kpis l).total_transactions = 0) :
    (calculate_kpis l).avg_sale_per_transaction = 0 ∧
    (calculate_kpis l).repeat_customer_rate = 0 ∧
    (calculate_kpis l).clv = 0 := by
  have hlen : l.length = 0 := h
  have hl : l = [] := List.length_eq_zero.mp hlen
  subst hl
  exact ⟨kpis_nil_defaults.2.1, kpis_nil_defaults.2.2.1, kpis_nil_defaults.2.2.2⟩

/-- Witness for C2 at the empty collection. -/
theorem claim2_witness :
    (calculate_kpis ([] : List Record)).total_transactions = 0 ∧
    ((calculate_kpis ([] : List Record)).avg_sale_per_transaction = 0 ∧
      (calculate_kpis ([] : List Record)).repeat_customer_rate = 0 ∧
      (calculate_kpis ([] : List Record)).clv = 0) :=
  ⟨rfl, claim2_empty_input_guarded [] rfl⟩

/-- C3: filtering with an unbounded date range and every set filter at
its default (the full set of distinct observed values of its dimension)
reproduces the unfiltered KPI result exactly. -/
theorem claim3_default_filters_identity (l : List Record) :
    calculate_kpis (filtered_df none (default_city_filter l)
      (default_customer_type_filter l) (default_gender_filter l) l) = calculate_kpis l := by
  have hfeq : filtered_df none (default_city_filter l) (default_customer_type_filter l)
      (default_gender_filter l) l = l := by
    cases l with
    | nil => rfl
    | cons x xs =>
      show setFilters (default_city_filter (x :: xs)) (default_customer_type_filter (x :: xs))
        (default_gender_filter (x :: xs)) (x :: xs) = x :: xs
      apply List.filter_eq_self.mpr
      intro r hr
      have hc : r.city ∈ default_city_filter (x :: xs) := by
        unfold default_city_filter
        rw [if_neg (by simp)]
        exact (mem_uniqueKeys _ _).mpr (List.mem_map_of_mem Record.city hr)
      have hct : r.customer_type ∈ default_customer_type_filter (x :: xs) := by
        unfold default_customer_type_filter
        rw [if_neg (by simp)]
        exact (mem_uniqueKeys _ _).mpr (List.mem_map_of_mem Record.customer_type hr)
      have hg : r.gender ∈ default_gender_filter (x :: xs) := by
        unfold default_gender_filter
        rw [if_neg (by simp)]
        exact (mem_uniqueKeys _ _).mpr (List.mem_map_of_mem Record.gender hr)
      simp only [decide_eq_true_eq]
      exact ⟨hc, hct, hg⟩
  rw [hfeq]

/-- C4: an empty selection for any one of the three set filters empties
the filtered result; in particular an empty city selection gives
`total_transactions = 0` and the dependent metrics their zero defaults. -/
theorem claim4_empty_selection_empties (dr : Option (ℤ × ℤ))
    (cs cts gs : List String) (l : List Record) :
    filtered_df dr [] cts gs l = [] ∧
    filtered_df dr cs [] gs l = [] ∧
    filtered_df dr cs cts [] l = [] ∧
    (calculate_kpis (filtered_df dr [] cts gs l)).total_transactions = 0 ∧
    (calculate_kpis (filtered_df dr [] cts gs l)).avg_sale_per_transaction = 0 ∧
    (calculate_kpis (filtered_df dr [] cts gs l)).repeat_customer_rate = 0 ∧
    (calculate_kpis (filtered_df dr [] cts gs l)).clv = 0 := by
  have h1 : filtered_df dr [] cts gs l = [] := by
    apply List.filter_eq_nil_iff.mpr
    intro r _
    simp
  have h2 : filtered_df dr cs [] gs l = [] := by
    apply List.filter_eq_nil_iff.mpr
    intro r _
    simp
  have h3 : filtered_df dr cs cts [] l = [] := by
    apply List.filter_eq_nil_iff.mpr
    intro r _
    simp
  rw [h1, h2, h3]
  exact ⟨rfl, rfl, rfl, kpis_nil_defaults.1, kpis_nil_defaults.2.1,
    kpis_nil_defaults.2.2.1, kpis_nil_defaults.2.2.2⟩

/-- C5: `repeat_customers` counts exactly the records whose invoice id
appeared at a strictly earlier position in iteration order; it equals
`total_transactions - total_customers` whenever the invoice ids are
contiguous; and on the fixture with ids [A,A,B,C,C,C] it gives
`total_customers = 3` and `repeat_customers = 3`. -/
theorem claim5_repeat_row_count (l : List Record) :
    repeat_customers l = specEarlierRepeat (l.map Record.invoice_id) ∧
    (Contiguous (l.map Record.invoice_id) →
      repeat_customers l =
        (calculate_kpis l).total_transactions - (calculate_kpis l).total_customers) ∧
    ((calculate_kpis fixtureAABCCC).total_customers = 3 ∧
      repeat_customers fixtureAABCCC = 3) := by
  refine ⟨dupCount_eq_spec _, fun _ => repeat_eq_sub l, ?_, ?_⟩
  · simp +decide [calculate_kpis, fixtureAABCCC, mkRec, uniqueKeys]
  · simp +decide [repeat_customers, fixtureAABCCC, mkRec, dupCount]

/-- Witness for C5: the contiguous fixture [A,A,B,C,C,C] satisfies the
contiguity hypothesis and the duplication-count identity. -/
theorem claim5_witness : Contiguous (fixtureAABCCC.map Record.invoice_id) ∧
    repeat_customers fixtureAABCCC =
      (calculate_kpis fixtureAABCCC).total_transactions -
        (calculate_kpis fixtureAABCCC).total_customers :=
  ⟨by decide, (claim5_repeat_row_count fixtureAABCCC).2.1 (by decide)⟩

/-- C6: the literal 3-record scenario of the spec evaluates to exactly
the stated KPI values. -/
theorem claim6_literal_scenario :
    (calculate_kpis fixtureScenario).total_sales = 60 ∧
    (calculate_kpis fixtureScenario).total_transactions = 3 ∧
    (calculate_kpis fixtureScenario).total_customers = 2 ∧
    repeat_customers fixtureScenario = 1 ∧
    (calculate_kpis fixtureScenario).repeat_customer_rate = 50 ∧
    (calculate_kpis fixtureScenario).city_sales = [("X", 10), ("Y", 50)] := by
  refine ⟨?_, rfl, ?_, ?_, ?_, ?_⟩
  · simp +decide [calculate_kpis, fixtureScenario, mkRec]
    norm_num [round2, rhalfeven]
  · simp +decide [calculate_kpis, fixtureScenario, mkRec, uniqueKeys]
  · simp +decide [repeat_customers, fixtureScenario, mkRec, dupCount]
  · simp +decide [calculate_kpis, fixtureScenario, mkRec, uniqueKeys, repeat_customers, dupCount]
    norm_num [round2, rhalfeven]
  · simp +decide [calculate_kpis, groupSales, fixtureScenario, mkRec, uniqueKeys]
    norm_num [round2, rhalfeven]

/-- C7: if any of the 17 required columns is absent from the source, the
whole load is rejected and the empty — but well-typed — collection is
returned. -/
theorem claim7_missing_column_rejects (t : Table)
    (h : ∃ c ∈ required_columns, c ∉ t.columns) : load_data t = [] := by
  rcases h with ⟨c, hc, hnc⟩
  have hall : ¬(required_columns.all (fun c => decide (c ∈ t.columns)) = true) := by
    simp only [List.all_eq_true, decide_eq_true_eq]
    intro hall
    exact hnc (hall c hc)
  simp only [load_data, if_neg hall]

/-- Witness for C7: a source exposing only a Branch column is rejected. -/
theorem claim7_witness :
    (∃ c ∈ required_columns, c ∉ (Table.mk ["Branch"] fixtureScenario).columns) ∧
    load_data (Table.mk ["Branch"] fixtureScenario) = [] :=
  ⟨by decide, claim7_missing_column_rejects (Table.mk ["Branch"] fixtureScenario) (by decide)⟩

/-- C8: with both bounds given the date filter keeps exactly the records
with `lower ≤ date ≤ upper`, inclusive at both ends; with no range given
it keeps all records. -/
theorem claim8_date_range_inclusive (l : List Record) (s e : ℤ) :
    dateFilter none l = l ∧
    (∀ r : Record, r ∈ dateFilter (some (s, e)) l ↔ r ∈ l ∧ s ≤ r.date ∧ r.date ≤ e) := by
  refine ⟨rfl, ?_⟩
  intro r
  simp [dateFilter, List.mem_filter]

/-- C9: the loader considers only the first 1000 rows of the source, so
1500 valid rows still yield `total_transactions ≤ 1000` on the initial
unfiltered load. -/
theorem claim9_row_cap (t : Table) (hcols : ∀ c ∈ required_columns, c ∈ t.columns) :
    load_data t = t.rows.take 1000 ∧
    (t.rows.length = 1500 → (calculate_kpis (load_data t)).total_transactions ≤ 1000) := by
  have hall : required_columns.all (fun c => decide (c ∈ t.columns)) = true := by
    simp only [List.all_eq_true, decide_eq_true_eq]
    exact hcols
  constructor
  · simp only [load_data, if_pos hall]
  · intro _
    show (load_data t).length ≤ 1000
    simp only [load_data, if_pos hall, List.length_take]
    omega

/-- Witness for C9 at a 1500-row source with all required columns. -/
theorem claim9_witness :
    (∀ c ∈ required_columns, c ∈ bigTable.columns) ∧
    (calculate_kpis (load_data bigTable)).total_transactions ≤ 1000 :=
  ⟨by decide, (claim9_row_cap bigTable (by decide)).2
    (by simp only [bigTable, List.length_replicate])⟩

/-- C10: with no contiguity assumption at all, `repeat_customers` equals
`total_transactions - total_customers`: the row count minus the number
of distinct invoice ids. -/
theorem claim10_repeat_identity_unconditional (l : List Record) :
    repeat_customers l =
      (calculate_kpis l).total_transactions - (calculate_kpis l).total_customers :=
  repeat_eq_sub l

end DataVista
